import Mathlib

/-!
Verification of the IIIT NR attendance backend (`server.js` as shipped under
`src/FacultyApp/src/services/api.ts`, second document: the Express backend).

Shallow embedding conventions:
* Firestore collections become Lean lists; document ids for `attendance`
  records are modelled as a `Nat` counter (`DB.nextId`) because the only use
  the code makes of a generated id is equality (patch-by-id).  Server
  timestamps (`FieldValue.serverTimestamp()`) become an explicit `now : Nat`
  parameter, as does `Date.now()` (milliseconds).
* JavaScript numbers that the code compares and adds (coordinates, radius,
  distances) are modelled as `ℚ`; JS truthiness of a number (`latitude &&`)
  is `jsTruthy`: false exactly for a missing value or `0`.
* `calculateDistance` (Haversine over `Math.sin`/`Math.cos`/`Math.atan2`)
  is transcendental floating point and is not representable exactly; the
  scan path is therefore parameterised by the distance function
  `dist : ℚ → ℚ → ℚ → ℚ → ℚ` it calls, keeping every comparison and use of
  its result faithful to the source.
* `Buffer.from(s).toString('base64')` is an injective encoding, so equality
  of stored signatures holds exactly when the pre-encoding strings are
  equal; the signature field is modelled as that pre-encoding string
  (`sessionId ++ "-" ++ decimal timestamp ++ "-" ++ secret`).
* The JS template interpolation of the numeric timestamp (a decimal
  rendering) is modelled by the executable decimal printer `natDec`.
-/

namespace Attend

/-- Decimal digit character, the rendering used by JS number-to-string
interpolation for a digit `d < 10`. -/
def digitChar (d : Nat) : Char := Char.ofNat (48 + d)

/-- Fuelled decimal rendering (structural recursion on the fuel so the
kernel can evaluate it; `natDecChars` supplies sufficient fuel). -/
def natDecAux : Nat → Nat → List Char
  | 0, _ => []
  | fuel + 1, n =>
    if n < 10 then [digitChar n]
    else natDecAux fuel (n / 10) ++ [digitChar (n % 10)]

/-- Decimal rendering of a natural number as a list of characters: the JS
template-literal interpolation of an integer-valued number. -/
def natDecChars (n : Nat) : List Char := natDecAux (n + 1) n

/-- Decimal rendering of a natural number as a string. -/
def natDec (n : Nat) : String := ⟨natDecChars n⟩

/-- JS truthiness of an optional number: `undefined`, `null` and `0` are
falsy, every other number is truthy. -/
def jsTruthy : Option ℚ → Bool
  | none => false
  | some x => x != 0

/-- `x || d` for an optional JS number `x`: the default applies when `x` is
missing or falsy (`0`). -/
def jsOrDefault (x : Option ℚ) (d : ℚ) : ℚ :=
  match x with
  | none => d
  | some v => if v = 0 then d else v

/-- `x || null` for an optional JS number: a falsy value is replaced by
`null` (`none`). -/
def jsOrNull (x : Option ℚ) : Option ℚ :=
  if jsTruthy x then x else none

/-- `Math.round` on an exact rational: `⌊x + 1/2⌋` (round half up), written
as kernel-evaluable integer arithmetic on the numerator and denominator;
`jsRound_eq_floor` below proves it equal to `⌊x + 1/2⌋`. -/
def jsRound (q : ℚ) : ℤ := (2 * q.num + q.den) / (2 * (q.den : ℤ))

/-- Geofence snapshot embedded in a QR payload (`location` object built by
the generate-qr route: `{ latitude, longitude, radius }`). -/
structure GeoLocation where
  latitude : ℚ
  longitude : ℚ
  radius : Option ℚ
deriving DecidableEq, Repr

/-- A parsed QR payload, the field set produced by `generateQRPayload`. -/
structure QRPayload where
  sessionId : String
  courseId : String
  facultyId : String
  timestamp : Nat
  expiresAt : Nat
  location : Option GeoLocation
  signature : String
deriving DecidableEq, Repr

/-- The string whose base64 encoding `generateQRPayload` stores as the
signature: `` `${sessionId}-${timestamp}-${secret}` ``.  Base64 over UTF-8 is
injective, so signature equality is modelled by equality of these strings. -/
def qrSignature (sessionId : String) (timestamp : Nat) (secret : String) : String :=
  sessionId ++ "-" ++ natDec timestamp ++ "-" ++ secret

/-- `generateQRPayload(sessionId, courseId, facultyId, location, expiresIn)`:
captures `now` (`Date.now()`), sets `expiresAt = now + expiresIn` and signs
the session id and timestamp with the server secret. -/
def generateQRPayload (sessionId courseId facultyId : String)
    (location : Option GeoLocation) (expiresIn : Nat) (now : Nat)
    (secret : String) : QRPayload :=
  { sessionId := sessionId
    courseId := courseId
    facultyId := facultyId
    timestamp := now
    expiresAt := now + expiresIn
    location := location
    signature := qrSignature sessionId now secret }

/-- `verifyQRSignature(payload)`: recomputes the signature over the
payload's own `sessionId` and `timestamp` and compares it with the carried
`signature`. -/
def verifyQRSignature (payload : QRPayload) (secret : String) : Bool :=
  payload.signature == qrSignature payload.sessionId payload.timestamp secret

/-- A `sessions` document (the fields the verified routes read or write). -/
structure Session where
  courseId : String
  facultyId : String
  presentCount : ℤ
  isActive : Bool
  endedAt : Option Nat
deriving DecidableEq, Repr

/-- An `attendance` document.  Fields written only by one of the two paths
(scan vs manual) are `Option`s, absent (`none`) on the other path. -/
structure ARec where
  id : Nat
  sessionId : String
  courseId : String
  studentId : String
  status : String
  markedAt : Nat
  markedBy : String
  locationVerified : Bool
  studentLatitude : Option ℚ
  studentLongitude : Option ℚ
  distanceFromClass : Option ℤ
  accuracy : Option ℚ
  qrTimestamp : Option Nat
  deviceId : Option String
  manual : Bool
  updatedAt : Option Nat
deriving DecidableEq, Repr

/-- An `enrollments` document. -/
structure Enrollment where
  studentId : String
  courseId : String
  isActive : Bool
deriving DecidableEq, Repr

/-- A `courses` document (the fields the join-code logic reads). -/
structure Course where
  facultyId : String
  joinCode : Option String
  isActive : Bool
deriving DecidableEq, Repr

/-- The persisted state: the Firestore collections the verified routes
touch, plus the fresh-id counter for `attendance` document ids. -/
structure DB where
  sessions : List (String × Session)
  attendance : List ARec
  enrollments : List Enrollment
  activeQRs : List (String × QRPayload)
  courses : List (String × Course)
  nextId : Nat
deriving DecidableEq, Repr

/-- `db.collection('sessions').doc(sid).get()`. -/
def findSession (db : DB) (sid : String) : Option Session :=
  (db.sessions.find? (fun p => p.1 == sid)).map (·.2)

/-- The enrollment query of the scan route: an active enrollment for
`(studentId, courseId)` exists. -/
def enrolled (db : DB) (studentId courseId : String) : Bool :=
  db.enrollments.any (fun e =>
    e.studentId == studentId && e.courseId == courseId && e.isActive)

/-- The already-marked query of the scan route: any `attendance` record for
`(sessionId, studentId)`, regardless of status. -/
def hasAttendance (db : DB) (sessionId studentId : String) : Bool :=
  db.attendance.any (fun r =>
    r.sessionId == sessionId && r.studentId == studentId)

/-- `FieldValue.increment(d)` applied to a session's `presentCount`. -/
def incPresent (db : DB) (sid : String) (d : ℤ) : DB :=
  { db with
    sessions := db.sessions.map (fun p =>
      if p.1 == sid then (p.1, { p.2 with presentCount := p.2.presentCount + d })
      else p) }

/-- Result of `POST /api/student/scan-qr`, one constructor per typed
response of the route. -/
inductive ScanResult where
  | invalidFormat
  | invalidSignature
  | expired
  | sessionNotFound
  | notEnrolled
  | alreadyMarked
  | outOfRange (distance : ℤ) (maxDistance : ℚ)
  | success (record : ARec)
deriving DecidableEq, Repr

/-- Whether a scan result is the success response. -/
def ScanResult.isSuccess : ScanResult → Bool
  | .success _ => true
  | _ => false

/-- The geofence block of the scan route.  It is entered only when the
payload carries a `location` and both observed coordinates are truthy
(`payload.location && latitude && longitude`); inside, the distance
exceeding `location.radius || 50` yields the out-of-range rejection
(`.inl (rounded distance, max distance)`), otherwise the scan proceeds
(`.inr (locationVerified, distanceFromClass)`, which is `(true, 0)` when
the block is skipped). -/
def geofenceCheck (dist : ℚ → ℚ → ℚ → ℚ → ℚ) (location : Option GeoLocation)
    (latitude longitude : Option ℚ) : (ℤ × ℚ) ⊕ (Bool × ℚ) :=
  match location, latitude, longitude with
  | some loc, some la, some lo =>
    if la ≠ 0 ∧ lo ≠ 0 then
      let d := dist la lo loc.latitude loc.longitude
      let maxD := jsOrDefault loc.radius 50
      if d ≤ maxD then .inr (true, d)
      else .inl (jsRound d, maxD)
    else .inr (true, 0)
  | _, _, _ => .inr (true, 0)

/-- The attendance document and state update of a successful scan. -/
def scanWrite (db : DB) (payload : QRPayload) (userId : String)
    (latitude longitude accuracy : Option ℚ) (deviceId : Option String)
    (now : Nat) (locationVerified : Bool) (d : ℚ) : ScanResult × DB :=
  let record : ARec :=
    { id := db.nextId
      sessionId := payload.sessionId
      courseId := payload.courseId
      studentId := userId
      status := "present"
      markedAt := now
      markedBy := "student"
      locationVerified := locationVerified
      studentLatitude := jsOrNull latitude
      studentLongitude := jsOrNull longitude
      distanceFromClass := some (jsRound d)
      accuracy := jsOrNull accuracy
      qrTimestamp := some payload.timestamp
      deviceId := some ((deviceId.filter (· != "")).getD "unknown")
      manual := false
      updatedAt := none }
  let db1 := { db with
    attendance := db.attendance ++ [record]
    nextId := db.nextId + 1 }
  (.success record, incPresent db1 payload.sessionId 1)

/-- `POST /api/student/scan-qr`, the scan path.  `qr = none` models a
`qrData` string `JSON.parse` rejects.  `dist` is the distance function the
route calls (`calculateDistance`); `now` is `Date.now()`. -/
def recordScan (dist : ℚ → ℚ → ℚ → ℚ → ℚ) (secret : String) (db : DB)
    (userId : String) (qr : Option QRPayload)
    (latitude longitude accuracy : Option ℚ) (deviceId : Option String)
    (now : Nat) : ScanResult × DB :=
  match qr with
  | none => (.invalidFormat, db)
  | some payload =>
    if ¬ verifyQRSignature payload secret then (.invalidSignature, db)
    else if now > payload.expiresAt then (.expired, db)
    else
      match findSession db payload.sessionId with
      | none => (.sessionNotFound, db)
      | some _session =>
        if ¬ enrolled db userId payload.courseId then (.notEnrolled, db)
        else if hasAttendance db payload.sessionId userId then (.alreadyMarked, db)
        else
          match geofenceCheck dist payload.location latitude longitude with
          | .inl (roundedDist, maxD) => (.outOfRange roundedDist maxD, db)
          | .inr (locationVerified, d) =>
            scanWrite db payload userId latitude longitude accuracy deviceId
              now locationVerified d

/-- Result of `POST /api/faculty/session/:sessionId/stop`.  `failedUpdate`
is the generic 500 produced when the Firestore `update` throws (the session
document does not exist). -/
inductive StopResult where
  | ok
  | failedUpdate
deriving DecidableEq, Repr

/-- `POST /api/faculty/session/:sessionId/stop`: unconditionally updates the
session (`isActive := false`, `endedAt`) and deletes the stored active QR.
The route never reads the caller's identity (`_callerId` is unused) and
performs no ownership check. -/
def stopSession (db : DB) (_callerId sessionId : String) (now : Nat) :
    StopResult × DB :=
  match findSession db sessionId with
  | none => (.failedUpdate, db)
  | some s =>
    (.ok,
      { db with
        sessions := db.sessions.map (fun p =>
          if p.1 == sessionId then
            (p.1, { s with isActive := false, endedAt := some now })
          else p)
        activeQRs := db.activeQRs.filter (fun p => p.1 != sessionId) })

/-- First-occurrence deduplication with an accumulator of already seen
elements. -/
def dedupFirstAux (seen : List String) : List String → List String
  | [] => []
  | x :: xs =>
    if x ∈ seen then dedupFirstAux seen xs
    else x :: dedupFirstAux (seen ++ [x]) xs

/-- First-occurrence deduplication: the membership order of a JS `Set`
built by insertion. -/
def dedupFirst (l : List String) : List String := dedupFirstAux [] l

/-- The manual-attendance route's `currentSnapshot`: every `attendance`
record of the session, in collection order. -/
def snapshotFor (db : DB) (sid : String) : List ARec :=
  db.attendance.filter (fun r => r.sessionId == sid)

/-- The route's `currentPresentIds` set: student ids of the snapshot's
`present` records, first occurrence first. -/
def presentIdsOf (snapshot : List ARec) : List String :=
  dedupFirst ((snapshot.filter (fun r => r.status == "present")).map (·.studentId))

/-- The student ids currently marked present for a session. -/
def currentPresentIds (db : DB) (sid : String) : List String :=
  presentIdsOf (snapshotFor db sid)

/-- The `attendance` document the manual path's addition loop writes. -/
def mkManualRec (id : Nat) (sid cid uid : String) (now : Nat) : ARec :=
  { id := id
    sessionId := sid
    courseId := cid
    studentId := uid
    status := "present"
    markedAt := now
    markedBy := "faculty"
    locationVerified := false
    studentLatitude := none
    studentLongitude := none
    distanceFromClass := none
    accuracy := none
    qrTimestamp := none
    deviceId := none
    manual := true
    updatedAt := none }

/-- The addition loop: one `attendance.add` per student of `toAdd`, in
order, each with a fresh document id. -/
def addPresentAll (cid sid : String) (now : Nat) : DB → List String → DB
  | db, [] => db
  | db, uid :: rest =>
    addPresentAll cid sid now
      { db with
        attendance := db.attendance ++ [mkManualRec db.nextId sid cid uid now]
        nextId := db.nextId + 1 }
      rest

/-- The field patch applied to a record flipped to absent by the manual
path's removal loop. -/
def absentify (now : Nat) (r : ARec) : ARec :=
  { r with status := "absent", updatedAt := some now,
           markedBy := "faculty", manual := true }

/-- One step of the removal loop: find, in the pre-state snapshot, the
first `present` record of the student, and patch that document (by id) to
absent. -/
def patchAbsent (snapshot : List ARec) (now : Nat) (db : DB) (uid : String) : DB :=
  match snapshot.find? (fun d => d.studentId == uid && d.status == "present") with
  | none => db
  | some d =>
    { db with
      attendance := db.attendance.map (fun r =>
        if r.id == d.id then absentify now r else r) }

/-- The removal loop over `toRemove`. -/
def patchAbsentAll (snapshot : List ARec) (now : Nat) : DB → List String → DB
  | db, [] => db
  | db, uid :: rest => patchAbsentAll snapshot now (patchAbsent snapshot now db uid) rest

/-- Result of `POST /api/faculty/session/:sessionId/manual-attendance`. -/
inductive ManualResult where
  | notFound
  | forbidden
  | ok (added removed : Nat)
deriving DecidableEq, Repr

/-- The body of the manual-attendance route once the session is found and
ownership established: compute the delta against the current present set,
append records for the additions, patch the removals to absent, and update
the present-count by the delta when it is non-zero. -/
def reconcile (db : DB) (s : Session) (sid : String)
    (presentStudentIds : List String) (now : Nat) : ManualResult × DB :=
  let snapshot := snapshotFor db sid
  let cur := presentIdsOf snapshot
  let toAdd := presentStudentIds.filter (fun i => ¬ i ∈ cur)
  let toRemove := cur.filter (fun i => ¬ i ∈ presentStudentIds)
  let db1 := addPresentAll s.courseId sid now db toAdd
  let db2 := patchAbsentAll snapshot now db1 toRemove
  let delta : ℤ := (toAdd.length : ℤ) - (toRemove.length : ℤ)
  let db3 := if delta ≠ 0 then incPresent db2 sid delta else db2
  (.ok toAdd.length toRemove.length, db3)

/-- `POST /api/faculty/session/:sessionId/manual-attendance`: set
reconciliation of the session's present set against `presentStudentIds`. -/
def applyManualAttendance (db : DB) (callerId sid : String)
    (presentStudentIds : List String) (now : Nat) : ManualResult × DB :=
  match findSession db sid with
  | none => (.notFound, db)
  | some s =>
    if s.facultyId ≠ callerId then (.forbidden, db)
    else reconcile db s sid presentStudentIds now

/-- Specification helper: the records the addition loop appends, in order,
with consecutive fresh ids starting at `n0`. -/
def manualRecs (cid sid : String) (now : Nat) : Nat → List String → List ARec
  | _, [] => []
  | n0, uid :: rest =>
    mkManualRec n0 sid cid uid now :: manualRecs cid sid now (n0 + 1) rest

/-- Specification helper: the ids of the records the removal loop patches —
for each student of the list, the id of the first matching `present` record
of the pre-state snapshot, when one exists. -/
def targetIds (snapshot : List ARec) (l : List String) : List Nat :=
  l.filterMap (fun uid =>
    (snapshot.find? (fun d => d.studentId == uid && d.status == "present")).map
      (·.id))

/-- The join-code alphabet: `'ABCDEFGHJKLMNPQRSTUVWXYZ23456789'` (confusing
characters removed). -/
def joinChars : List Char := "ABCDEFGHJKLMNPQRSTUVWXYZ23456789".data

/-- `generateJoinCode()`: six characters drawn from the alphabet.  The
stream of `Math.floor(Math.random() * chars.length)` draws is modelled by
`draws : Nat → Fin 32`; attempt `k` consumes draws `6*k .. 6*k+5`. -/
def generateJoinCode (draws : Nat → Fin 32) (k : Nat) : String :=
  ⟨(List.range 6).map (fun i =>
    joinChars.get (Fin.cast (by decide) (draws (6 * k + i))))⟩

/-- Whether some course document carries the given join code (the
`where('joinCode','==',joinCode)` collision query - it does not filter on
`isActive`). -/
def joinCodeTaken (db : DB) (code : String) : Bool :=
  db.courses.any (fun c => c.2.joinCode == some code)

/-- The uniqueness loop of `POST /api/faculty/classes/full`: generate, and
regenerate while the code is already taken.  `fuel` bounds the unbounded
`while`; `none` means the fuel ran out with every draw colliding. -/
def joinCodeLoop (draws : Nat → Fin 32) (db : DB) : Nat → Nat → Option String
  | 0, _ => none
  | fuel + 1, k =>
    let code := generateJoinCode draws k
    if joinCodeTaken db code then joinCodeLoop draws db fuel (k + 1)
    else some code

/-! ### Concrete fixtures used by witnesses and counterexamples -/

/-- A distance function returning `0` (the claims that do not exercise the
geofence never call it). -/
def distZero : ℚ → ℚ → ℚ → ℚ → ℚ := fun _ _ _ _ => 0

/-- A distance function returning `50.5` metres, a non-integral value of
the kind the Haversine formula generically produces. -/
def distHalf : ℚ → ℚ → ℚ → ℚ → ℚ := fun _ _ _ _ => Rat.mk' 101 2

/-- A distance function returning exactly `50` metres (the fixture
geofence radius). -/
def distFifty : ℚ → ℚ → ℚ → ℚ → ℚ := fun _ _ _ _ => 50

/-- Fixture session owned by faculty `f1`. -/
def sessionA : Session :=
  { courseId := "c1", facultyId := "f1", presentCount := 0,
    isActive := true, endedAt := none }

/-- Fixture geofence centred at (12, 77) with radius 50. -/
def geoA : GeoLocation := { latitude := 12, longitude := 77, radius := some 50 }

/-- Fixture token without geofence, issued at t=1000, validity 300000 ms. -/
def tokA : QRPayload := generateQRPayload "s1" "c1" "f1" none 300000 1000 "sec"

/-- Fixture token carrying the geofence `geoA`. -/
def tokGeoA : QRPayload :=
  generateQRPayload "s1" "c1" "f1" (some geoA) 300000 1000 "sec"

/-- Fixture database: session `s1` of course `c1`, student `u1` enrolled,
no attendance yet. -/
def dbA : DB :=
  { sessions := [("s1", sessionA)]
    attendance := []
    enrollments := [{ studentId := "u1", courseId := "c1", isActive := true }]
    activeQRs := [("s1", tokA)]
    courses := []
    nextId := 0 }

/-- Fixture database where `(s1, u1)` has an `absent` record and no
`present` record. -/
def dbAbsent : DB :=
  { dbA with
    attendance := [{ (mkManualRec 0 "s1" "c1" "u1" 5) with status := "absent" }]
    nextId := 1 }

end Attend

/-! ## Theorems -/

namespace Attend

/-- `jsRound` is `Math.round`: `⌊x + 1/2⌋`. -/
theorem jsRound_eq_floor (q : ℚ) : jsRound q = ⌊q + 1/2⌋ := by
  have h2 : q + 1/2 = ((2 * q.num + q.den : ℤ) : ℚ) / ((2 * q.den : ℕ) : ℚ) := by
    conv_lhs => rw [← Rat.num_div_den q]
    push_cast
    field_simp
    ring
  rw [jsRound, h2, Rat.floor_intCast_div_natCast]
  push_cast
  rfl

/-- Fuel irrelevance for the decimal printer. -/
theorem natDecAux_fuel_irrel :
    ∀ n fuel fuel', n < fuel → n < fuel' → natDecAux fuel n = natDecAux fuel' n := by
  intro n
  induction n using Nat.strong_induction_on with
  | _ n ih =>
    intro fuel fuel' hf hf'
    match fuel, fuel' with
    | f + 1, g + 1 =>
      simp only [natDecAux]
      by_cases h10 : n < 10
      · simp [h10]
      · have hdiv : n / 10 < n := Nat.div_lt_self (by omega) (by omega)
        simp only [h10, if_false]
        rw [ih (n / 10) hdiv f g (by omega) (by omega)]

/-- Unfolding of `natDecChars` for a single digit. -/
theorem natDecChars_small {n : Nat} (h : n < 10) :
    natDecChars n = [digitChar n] := by
  simp [natDecChars, natDecAux, h]

/-- Unfolding of `natDecChars` for a multi-digit number. -/
theorem natDecChars_big {n : Nat} (h : 10 ≤ n) :
    natDecChars n = natDecChars (n / 10) ++ [digitChar (n % 10)] := by
  have hdiv : n / 10 < n := Nat.div_lt_self (by omega) (by omega)
  unfold natDecChars
  rw [natDecAux, if_neg (Nat.not_lt.2 h),
    natDecAux_fuel_irrel (n / 10) n (n / 10 + 1) (by omega) (by omega)]

/-- The decimal printer never yields the empty list. -/
theorem natDecChars_ne_nil (n : Nat) : natDecChars n ≠ [] := by
  by_cases h : n < 10
  · simp [natDecChars_small h]
  · simp [natDecChars_big (Nat.not_lt.1 h)]

/-- Digit characters are distinct. -/
theorem digitChar_inj {a b : Nat} (ha : a < 10) (hb : b < 10)
    (h : digitChar a = digitChar b) : a = b := by
  have : ∀ x : Fin 10, ∀ y : Fin 10, digitChar x.val = digitChar y.val → x = y := by decide
  have := this ⟨a, ha⟩ ⟨b, hb⟩ h
  exact congrArg Fin.val this

/-- The decimal printer is injective. -/
theorem natDecChars_inj : ∀ n m, natDecChars n = natDecChars m → n = m := by
  intro n
  induction n using Nat.strong_induction_on with
  | _ n ih =>
    intro m h
    by_cases hn : n < 10 <;> by_cases hm : m < 10
    · rw [natDecChars_small hn, natDecChars_small hm] at h
      exact digitChar_inj hn hm (List.cons.injEq .. ▸ h).1
    · rw [natDecChars_small hn, natDecChars_big (Nat.not_lt.1 hm)] at h
      have hlen := congrArg List.length h
      simp only [List.length_append, List.length_cons, List.length_nil] at hlen
      exact absurd (List.eq_nil_of_length_eq_zero (by omega))
        (natDecChars_ne_nil (m / 10))
    · rw [natDecChars_big (Nat.not_lt.1 hn), natDecChars_small hm] at h
      have hlen := congrArg List.length h
      simp only [List.length_append, List.length_cons, List.length_nil] at hlen
      exact absurd (List.eq_nil_of_length_eq_zero (by omega))
        (natDecChars_ne_nil (n / 10))
    · rw [natDecChars_big (Nat.not_lt.1 hn), natDecChars_big (Nat.not_lt.1 hm)] at h
      have hsplit := List.append_inj' h rfl
      have h1 : n / 10 = m / 10 :=
        ih (n / 10) (Nat.div_lt_self (by omega) (by omega)) (m / 10) hsplit.1
      have h2 : n % 10 = m % 10 :=
        digitChar_inj (Nat.mod_lt _ (by omega)) (Nat.mod_lt _ (by omega))
          (List.cons.injEq .. ▸ hsplit.2).1
      omega

/-- The decimal rendering of naturals is injective. -/
theorem natDec_inj {n m : Nat} (h : natDec n = natDec m) : n = m :=
  natDecChars_inj n m (congrArg String.data h)

/-- Changing the session id (same timestamp, same secret) changes the
signing string. -/
theorem qrSignature_inj_sessionId {s s' : String} {t : Nat} {k : String}
    (h : qrSignature s t k = qrSignature s' t k) : s = s' := by
  have hd := congrArg String.data h
  simp only [qrSignature, String.data_append, List.append_assoc] at hd
  exact String.ext (List.append_cancel_right hd)

/-- Changing the timestamp (same session id, same secret) changes the
signing string. -/
theorem qrSignature_inj_timestamp {s : String} {t t' : Nat} {k : String}
    (h : qrSignature s t k = qrSignature s t' k) : t = t' := by
  have hd := congrArg String.data h
  simp only [qrSignature, String.data_append, List.append_assoc] at hd
  have h1 := List.append_cancel_left hd
  have h2 := List.append_cancel_left h1
  exact natDec_inj (String.ext (List.append_cancel_right h2))

/-- C9: `verifyQRSignature` reads only the payload's `sessionId`,
`timestamp` and `signature`: two payloads agreeing on those three fields
verify identically, however they differ in `courseId`, `facultyId`,
`expiresAt` or `location` — so a token whose expiry or geofence has been
altered still verifies as validly signed. -/
theorem signature_ignores_other_fields (p q : QRPayload) (secret : String)
    (hs : p.sessionId = q.sessionId) (ht : p.timestamp = q.timestamp)
    (hsig : p.signature = q.signature) :
    verifyQRSignature p secret = verifyQRSignature q secret := by
  simp [verifyQRSignature, hs, ht, hsig]

/-- Witness for C9: a signed token with its expiry and geofence altered
(and course/faculty renamed) still verifies exactly like the original. -/
theorem signature_ignores_other_fields_witness :
    verifyQRSignature
      { tokGeoA with
        courseId := "cX"
        facultyId := "fX"
        expiresAt := 0
        location := none } "sec"
      = verifyQRSignature tokGeoA "sec" :=
  signature_ignores_other_fields _ tokGeoA "sec" rfl rfl rfl

/-- C7: for every issued token, changing its session id, or changing its
timestamp, while keeping the original signature, makes verification return
false: the recomputed signature over the mutated field no longer equals
the carried one. -/
theorem token_tamper_invalidates (s c f : String) (loc : Option GeoLocation)
    (expIn now : Nat) (secret : String) (s' : String) (t' : Nat)
    (hs : s' ≠ s) (ht : t' ≠ now) :
    verifyQRSignature
      { (generateQRPayload s c f loc expIn now secret) with sessionId := s' } secret = false
    ∧ verifyQRSignature
      { (generateQRPayload s c f loc expIn now secret) with timestamp := t' } secret = false := by
  constructor
  · simp only [verifyQRSignature, generateQRPayload, beq_eq_false_iff_ne, ne_eq]
    intro h
    exact hs (qrSignature_inj_sessionId h).symm
  · simp only [verifyQRSignature, generateQRPayload, beq_eq_false_iff_ne, ne_eq]
    intro h
    exact ht (qrSignature_inj_timestamp h).symm

/-- Witness for C7 at a concrete token: both mutations are rejected. -/
theorem token_tamper_invalidates_witness :
    verifyQRSignature { tokA with sessionId := "s2" } "sec" = false
    ∧ verifyQRSignature { tokA with timestamp := 1001 } "sec" = false :=
  token_tamper_invalidates "s1" "c1" "f1" none 300000 1000 "sec" "s2" 1001
    (by decide) (by decide)

/-! ### Unfolding lemmas for the scan path -/

/-- A scan with an expired token (and a valid signature) is rejected as
expired. -/
theorem recordScan_expired {dist secret db userId p lat lon acc dev now}
    (hsig : verifyQRSignature p secret = true) (hexp : p.expiresAt < now) :
    recordScan dist secret db userId (some p) lat lon acc dev now = (.expired, db) := by
  simp [recordScan, hsig, hexp]

/-- A scan that passes signature and expiry reduces to the stateful tail of
the route. -/
theorem recordScan_tail {dist secret db userId p lat lon acc dev now}
    (hsig : verifyQRSignature p secret = true) (hexp : ¬ p.expiresAt < now) :
    recordScan dist secret db userId (some p) lat lon acc dev now =
      match findSession db p.sessionId with
      | none => (.sessionNotFound, db)
      | some _session =>
        if ¬ enrolled db userId p.courseId then (.notEnrolled, db)
        else if hasAttendance db p.sessionId userId then (.alreadyMarked, db)
        else
          match geofenceCheck dist p.location lat lon with
          | .inl (roundedDist, maxD) => (.outOfRange roundedDist maxD, db)
          | .inr (locationVerified, d) =>
            scanWrite db p userId lat lon acc dev now locationVerified d := by
  simp [recordScan, hsig, hexp]

/-- A scan whose guards pass but whose `(session, student)` pair already
has an attendance record is rejected as already marked. -/
theorem recordScan_alreadyMarked {dist secret db userId p lat lon acc dev now s}
    (hsig : verifyQRSignature p secret = true) (hexp : ¬ p.expiresAt < now)
    (hsess : findSession db p.sessionId = some s)
    (henr : enrolled db userId p.courseId = true)
    (hdup : hasAttendance db p.sessionId userId = true) :
    recordScan dist secret db userId (some p) lat lon acc dev now = (.alreadyMarked, db) := by
  rw [recordScan_tail hsig hexp, hsess]
  simp [henr, hdup]

/-- A scan whose guards all pass writes the attendance record determined by
the geofence outcome. -/
theorem recordScan_success {dist secret db userId p lat lon acc dev now s v d}
    (hsig : verifyQRSignature p secret = true) (hexp : ¬ p.expiresAt < now)
    (hsess : findSession db p.sessionId = some s)
    (henr : enrolled db userId p.courseId = true)
    (hdup : hasAttendance db p.sessionId userId = false)
    (hgeo : geofenceCheck dist p.location lat lon = .inr (v, d)) :
    recordScan dist secret db userId (some p) lat lon acc dev now =
      scanWrite db p userId lat lon acc dev now v d := by
  rw [recordScan_tail hsig hexp, hsess]
  simp [henr, hdup, hgeo]

/-- A scan whose guards all pass but whose geofence check fails is rejected
as out of range with the rounded distance and the effective radius. -/
theorem recordScan_outOfRange {dist secret db userId p lat lon acc dev now s rd m}
    (hsig : verifyQRSignature p secret = true) (hexp : ¬ p.expiresAt < now)
    (hsess : findSession db p.sessionId = some s)
    (henr : enrolled db userId p.courseId = true)
    (hdup : hasAttendance db p.sessionId userId = false)
    (hgeo : geofenceCheck dist p.location lat lon = .inl (rd, m)) :
    recordScan dist secret db userId (some p) lat lon acc dev now = (.outOfRange rd m, db) := by
  rw [recordScan_tail hsig hexp, hsess]
  simp [henr, hdup, hgeo]

/-- C5: whenever the scan path returns any of its typed errors (invalid
format, invalid signature, expired, session not found, not enrolled,
already marked, out of range), the persisted state is unchanged: no
attendance record is created and no present-count is incremented. -/
theorem scan_error_preserves_state
    (dist : ℚ → ℚ → ℚ → ℚ → ℚ) (secret : String) (db : DB) (userId : String)
    (qr : Option QRPayload) (lat lon acc : Option ℚ) (dev : Option String)
    (now : Nat)
    (h : (recordScan dist secret db userId qr lat lon acc dev now).1.isSuccess = false) :
    (recordScan dist secret db userId qr lat lon acc dev now).2 = db := by
  rcases hE : recordScan dist secret db userId qr lat lon acc dev now with ⟨r, db2⟩
  rw [hE] at h
  unfold recordScan at hE
  repeat' split at hE
  all_goals first
  | (cases hE; rfl)
  | (unfold scanWrite at hE; cases hE; simp [ScanResult.isSuccess] at h)

/-- Witness for C5: a malformed scan leaves the concrete state `dbA`
untouched. -/
theorem scan_error_preserves_state_witness :
    (recordScan distZero "sec" dbA "u1" none none none none none 0).2 = dbA :=
  scan_error_preserves_state distZero "sec" dbA "u1" none none none none none 0
    (by decide)

/-- For a token with a valid signature, the scan is rejected as expired
exactly when `now` is strictly greater than `expiresAt`. -/
theorem recordScan_expired_iff {dist secret db userId p lat lon acc dev now}
    (hsig : verifyQRSignature p secret = true) :
    ((recordScan dist secret db userId (some p) lat lon acc dev now).1 = .expired)
      ↔ p.expiresAt < now := by
  constructor
  · intro h
    by_contra hexp
    rw [recordScan_tail hsig hexp] at h
    repeat' split at h
    all_goals simp [scanWrite] at h
  · intro hexp
    rw [recordScan_expired hsig hexp]

/-- Counterexample to C2 as stated: the code rejects only when
`now > expiresAt`, so at the boundary instant `now = expiresAt` (here
301000) the token is still accepted — the scan succeeds rather than
failing `Expired`. -/
theorem token_expiry_boundary_counterexample :
    tokA.expiresAt = 301000
    ∧ (recordScan distZero "sec" dbA "u1" (some tokA) none none none none
        301000).1.isSuccess = true := by
  exact ⟨rfl, by decide⟩

/-- C2 (amended): for every issued token with a valid signature, the scan
path rejects it as `Expired` exactly when the current time is strictly
greater than `expiresAt` (at `now = expiresAt` it is still accepted), and
this rejection is monotone in time: once expired, a later scan of the same
token is also expired. -/
theorem token_expiry_strict_amended
    (dist : ℚ → ℚ → ℚ → ℚ → ℚ) (secret : String) (db : DB) (userId : String)
    (p : QRPayload) (lat lon acc : Option ℚ) (dev : Option String)
    (now now2 : Nat)
    (hsig : verifyQRSignature p secret = true) (hle : now ≤ now2) :
    ((recordScan dist secret db userId (some p) lat lon acc dev now).1 = .expired
      ↔ p.expiresAt < now)
    ∧ ((recordScan dist secret db userId (some p) lat lon acc dev now).1 = .expired →
       (recordScan dist secret db userId (some p) lat lon acc dev now2).1 = .expired) := by
  refine ⟨recordScan_expired_iff hsig, fun h => ?_⟩
  exact (recordScan_expired_iff hsig).2
    (lt_of_lt_of_le ((recordScan_expired_iff hsig).1 h) hle)

/-- Witness for C2 (amended) at a concrete token: expired one millisecond
past the boundary, and still expired later. -/
theorem token_expiry_strict_amended_witness :
    ((recordScan distZero "sec" dbA "u1" (some tokA) none none none none
        301001).1 = .expired ↔ tokA.expiresAt < 301001)
    ∧ ((recordScan distZero "sec" dbA "u1" (some tokA) none none none none
        301001).1 = .expired →
       (recordScan distZero "sec" dbA "u1" (some tokA) none none none none
        400000).1 = .expired) :=
  token_expiry_strict_amended distZero "sec" dbA "u1" tokA none none none none
    301001 400000 (by decide) (by decide)

/-- When the observed latitude or longitude is missing or falsy, the
geofence block is skipped: the scan proceeds as location-verified with
distance 0 regardless of any geofence in the token. -/
theorem geofenceCheck_skip {dist : ℚ → ℚ → ℚ → ℚ → ℚ}
    {loc : Option GeoLocation} {lat lon : Option ℚ}
    (hfalsy : jsTruthy lat = false ∨ jsTruthy lon = false) :
    geofenceCheck dist loc lat lon = .inr (true, 0) := by
  unfold geofenceCheck
  cases loc <;> cases lat <;> cases lon <;> simp_all [jsTruthy]
  intro h1 h2
  exact absurd hfalsy (by simp [h1, h2])

/-- C10: for every scan whose token carries a geofence but whose request
omits a coordinate or supplies a falsy one (such as 0), the distance check
is skipped entirely and (all other checks passing) the attendance record
is created with `locationVerified = true` and a recorded distance of 0. -/
theorem geofence_bypass_falsy_coords
    (dist : ℚ → ℚ → ℚ → ℚ → ℚ) (secret : String) (db : DB) (userId : String)
    (p : QRPayload) (lat lon acc : Option ℚ) (dev : Option String) (now : Nat)
    (s : Session)
    (hsig : verifyQRSignature p secret = true) (hexp : ¬ p.expiresAt < now)
    (hsess : findSession db p.sessionId = some s)
    (henr : enrolled db userId p.courseId = true)
    (hdup : hasAttendance db p.sessionId userId = false)
    (_hloc : p.location ≠ none)
    (hfalsy : jsTruthy lat = false ∨ jsTruthy lon = false) :
    ∃ rec,
      (recordScan dist secret db userId (some p) lat lon acc dev now).1
        = .success rec
      ∧ rec.locationVerified = true
      ∧ rec.distanceFromClass = some 0
      ∧ (recordScan dist secret db userId (some p) lat lon acc dev now).2.attendance
          = db.attendance ++ [rec] := by
  rw [recordScan_success hsig hexp hsess henr hdup (geofenceCheck_skip hfalsy)]
  exact ⟨_, rfl, rfl, rfl, rfl⟩

/-- Witness for C10: a scan of the geofenced token `tokGeoA` with latitude
supplied as the falsy `0` succeeds with `locationVerified = true` and
distance 0 (the distance function would have reported 50.5 m). -/
theorem geofence_bypass_falsy_coords_witness :
    ∃ rec,
      (recordScan distHalf "sec" dbA "u1" (some tokGeoA) (some 0) (some 77)
        none none 2000).1 = .success rec
      ∧ rec.locationVerified = true
      ∧ rec.distanceFromClass = some 0
      ∧ (recordScan distHalf "sec" dbA "u1" (some tokGeoA) (some 0) (some 77)
          none none 2000).2.attendance = dbA.attendance ++ [rec] :=
  geofence_bypass_falsy_coords distHalf "sec" dbA "u1" tokGeoA (some 0)
    (some 77) none none 2000 sessionA (by decide) (by decide) (by decide)
    (by decide) (by decide) (by decide) (Or.inl (by decide))

/-- `find?` by key commutes with a key-preserving map. -/
theorem find_map_keyed {β : Type} (f : String × β → String × β)
    (hk : ∀ p, (f p).1 = p.1) (x : String) :
    ∀ l : List (String × β), (l.map f).find? (fun p => p.1 == x)
      = (l.find? (fun p => p.1 == x)).map f := by
  intro l
  induction l with
  | nil => rfl
  | cons a l ih =>
    simp only [List.map_cons, List.find?_cons, hk a]
    by_cases h : a.1 == x
    · simp [h]
    · simp [h, ih]

/-- Looking up a session after a present-count update: the stored session
is unchanged except, for the updated key, its `presentCount`. -/
theorem findSession_incPresent (db : DB) (sid x : String) (d : ℤ) :
    findSession (incPresent db sid d) x
      = (findSession db x).map
          (fun t => if x = sid then { t with presentCount := t.presentCount + d }
                    else t) := by
  unfold findSession incPresent
  rw [find_map_keyed _ (fun p => by by_cases h : p.1 == sid <;> simp [h]) x]
  cases hfind : db.sessions.find? (fun p => p.1 == x) with
  | none => rfl
  | some a =>
    have hax : a.1 = x := by simpa using List.find?_some hfind
    by_cases h : x = sid <;> simp [hax, h]

/-- Replacing only the attendance list and the id counter does not change
session lookups. -/
theorem findSession_set_attendance (db : DB) (A : List ARec) (n : Nat)
    (x : String) :
    findSession { db with attendance := A, nextId := n } x = findSession db x :=
  rfl

/-- Counterexample to C1 as stated: the duplicate check matches any record
for the pair, not only `present` ones.  In `dbAbsent` the pair `(s1, u1)`
has a single `absent` record and no `present` record, yet a fresh valid
scan is rejected as already marked. -/
theorem scan_duplicate_check_counterexample :
    dbAbsent.attendance.any (fun r => r.sessionId == "s1" && r.studentId == "u1"
        && r.status == "present") = false
    ∧ dbAbsent.attendance.any (fun r => r.sessionId == "s1" && r.studentId == "u1"
        && r.status == "absent") = true
    ∧ (recordScan distZero "sec" dbAbsent "u1" (some tokA) none none none none
        2000).1 = .alreadyMarked := by
  exact ⟨by decide, by decide, by decide⟩

/-- C1 (amended): the duplicate check of the scan path matches any existing
attendance record for the `(session, student)` pair regardless of status,
and the call fails `AlreadyMarked` exactly when such a record exists.  A
second call with the same valid token and student therefore fails
`AlreadyMarked` and leaves the state unchanged: no second `present` record,
no second increment of the present-count. -/
theorem scan_duplicate_check_amended
    (dist : ℚ → ℚ → ℚ → ℚ → ℚ) (secret : String) (db : DB) (userId : String)
    (p : QRPayload) (lat lon acc : Option ℚ) (dev : Option String) (now : Nat)
    (s : Session)
    (hsig : verifyQRSignature p secret = true) (hexp : ¬ p.expiresAt < now)
    (hsess : findSession db p.sessionId = some s)
    (henr : enrolled db userId p.courseId = true) :
    ((recordScan dist secret db userId (some p) lat lon acc dev now).1
        = .alreadyMarked
      ↔ hasAttendance db p.sessionId userId = true)
    ∧ ((recordScan dist secret db userId (some p) lat lon acc dev now).1.isSuccess
        = true →
       recordScan dist secret
           ((recordScan dist secret db userId (some p) lat lon acc dev now).2)
           userId (some p) lat lon acc dev now
         = (.alreadyMarked,
            (recordScan dist secret db userId (some p) lat lon acc dev now).2)) := by
  constructor
  · constructor
    · intro h
      by_contra hdup
      rw [Bool.not_eq_true] at hdup
      cases hgeo : geofenceCheck dist p.location lat lon with
      | inl v =>
        rcases v with ⟨rd, m⟩
        rw [recordScan_outOfRange hsig hexp hsess henr hdup hgeo] at h
        simp at h
      | inr v =>
        rcases v with ⟨lv, d⟩
        rw [recordScan_success hsig hexp hsess henr hdup hgeo] at h
        simp [scanWrite] at h
    · intro hdup
      rw [recordScan_alreadyMarked hsig hexp hsess henr hdup]
  · intro hsucc
    have hdup : hasAttendance db p.sessionId userId = false := by
      by_contra hd
      rw [Bool.not_eq_false] at hd
      rw [recordScan_alreadyMarked hsig hexp hsess henr hd] at hsucc
      simp [ScanResult.isSuccess] at hsucc
    cases hgeo : geofenceCheck dist p.location lat lon with
    | inl v =>
      rcases v with ⟨rd, m⟩
      rw [recordScan_outOfRange hsig hexp hsess henr hdup hgeo] at hsucc
      simp [ScanResult.isSuccess] at hsucc
    | inr v =>
      rcases v with ⟨lv, d⟩
      rw [recordScan_success hsig hexp hsess henr hdup hgeo]
      have hsess2 : findSession
          ((scanWrite db p userId lat lon acc dev now lv d).2) p.sessionId
          = some { s with presentCount := s.presentCount + 1 } := by
        simp only [scanWrite]
        rw [findSession_incPresent, findSession_set_attendance, hsess]
        simp
      have henr2 : enrolled ((scanWrite db p userId lat lon acc dev now lv d).2)
          userId p.courseId = true := henr
      have hdup2 : hasAttendance ((scanWrite db p userId lat lon acc dev now lv d).2)
          p.sessionId userId = true := by
        simp [hasAttendance, scanWrite, incPresent]
      exact recordScan_alreadyMarked hsig hexp hsess2 henr2 hdup2

/-- Witness for C1 (amended) on the concrete state `dbA`: the first scan
succeeds and the second is rejected as already marked with no state
change. -/
theorem scan_duplicate_check_amended_witness :
    ((recordScan distZero "sec" dbA "u1" (some tokA) none none none none
        2000).1 = .alreadyMarked
      ↔ hasAttendance dbA "s1" "u1" = true)
    ∧ ((recordScan distZero "sec" dbA "u1" (some tokA) none none none none
        2000).1.isSuccess = true →
       recordScan distZero "sec"
           ((recordScan distZero "sec" dbA "u1" (some tokA) none none none none
              2000).2)
           "u1" (some tokA) none none none none 2000
         = (.alreadyMarked,
            (recordScan distZero "sec" dbA "u1" (some tokA) none none none none
              2000).2)) :=
  scan_duplicate_check_amended distZero "sec" dbA "u1" tokA none none none none
    2000 sessionA (by decide) (by decide) (by decide) (by decide)

/-- Counterexample to C3 as stated: the response does not carry the value
computed by the distance function but its rounding.  With a computed
distance of 50.5 m against a 50 m radius, the scan is rejected out of
range reporting 51 m — which differs from the computed 50.5 m. -/
theorem geofence_reported_distance_counterexample :
    distHalf 12 77 geoA.latitude geoA.longitude = Rat.mk' 101 2
    ∧ (recordScan distHalf "sec" dbA "u1" (some tokGeoA) (some 12) (some 77)
        none none 2000).1 = .outOfRange 51 50
    ∧ ((51 : ℚ) ≠ (Rat.mk' 101 2 : ℚ)) := by
  exact ⟨rfl, by decide, by decide⟩

/-- C3 (amended): when the token carries a geofence and both observed
coordinates are truthy, a scan whose computed distance is at most the
effective radius (`location.radius || 50`) — in particular one exactly at
the radius — is accepted, and one whose distance exceeds the radius is
rejected `OutOfRange` carrying the measured distance rounded to the
nearest metre (`Math.round`) together with the allowed radius. -/
theorem geofence_boundary_amended
    (dist : ℚ → ℚ → ℚ → ℚ → ℚ) (secret : String) (db : DB) (userId : String)
    (p : QRPayload) (acc : Option ℚ) (dev : Option String) (now : Nat)
    (s : Session) (loc : GeoLocation) (la lo : ℚ)
    (hsig : verifyQRSignature p secret = true) (hexp : ¬ p.expiresAt < now)
    (hsess : findSession db p.sessionId = some s)
    (henr : enrolled db userId p.courseId = true)
    (hdup : hasAttendance db p.sessionId userId = false)
    (hloc : p.location = some loc) (hla : la ≠ 0) (hlo : lo ≠ 0) :
    (dist la lo loc.latitude loc.longitude ≤ jsOrDefault loc.radius 50 →
      (recordScan dist secret db userId (some p) (some la) (some lo) acc dev
        now).1.isSuccess = true)
    ∧ (jsOrDefault loc.radius 50 < dist la lo loc.latitude loc.longitude →
      (recordScan dist secret db userId (some p) (some la) (some lo) acc dev
          now).1
        = .outOfRange (jsRound (dist la lo loc.latitude loc.longitude))
            (jsOrDefault loc.radius 50)) := by
  constructor
  · intro hin
    have hgeo : geofenceCheck dist p.location (some la) (some lo)
        = .inr (true, dist la lo loc.latitude loc.longitude) := by
      simp [geofenceCheck, hloc, hla, hlo, hin]
    rw [recordScan_success hsig hexp hsess henr hdup hgeo]
    rfl
  · intro hout
    have hgeo : geofenceCheck dist p.location (some la) (some lo)
        = .inl (jsRound (dist la lo loc.latitude loc.longitude),
                jsOrDefault loc.radius 50) := by
      simp [geofenceCheck, hloc, hla, hlo, not_le.2 hout]
    rw [recordScan_outOfRange hsig hexp hsess henr hdup hgeo]

/-- Witness for C3 (amended): a scan at exactly the 50 m radius of the
fixture geofence is accepted. -/
theorem geofence_boundary_amended_witness :
    (distFifty 12 77 geoA.latitude geoA.longitude ≤ jsOrDefault geoA.radius 50 →
      (recordScan distFifty "sec" dbA "u1" (some tokGeoA) (some 12) (some 77)
        none none 2000).1.isSuccess = true)
    ∧ (jsOrDefault geoA.radius 50 < distFifty 12 77 geoA.latitude geoA.longitude →
      (recordScan distFifty "sec" dbA "u1" (some tokGeoA) (some 12) (some 77)
          none none 2000).1
        = .outOfRange (jsRound (distFifty 12 77 geoA.latitude geoA.longitude))
            (jsOrDefault geoA.radius 50)) :=
  geofence_boundary_amended distFifty "sec" dbA "u1" tokGeoA none none 2000
    sessionA geoA 12 77 (by decide) (by decide) (by decide) (by decide)
    (by decide) (by decide) (by decide) (by decide)

/-- C4 (code bug): `stopSession` checks neither existence with a typed
`NotFound` nor ownership: a caller who is not the owning faculty succeeds
in stopping an existing session, which is deactivated and its end time
stamped. -/
theorem stopSession_no_ownership_check :
    sessionA.facultyId = "f1"
    ∧ ("f2" : String) ≠ "f1"
    ∧ (stopSession dbA "f2" "s1" 99).1 = .ok
    ∧ findSession (stopSession dbA "f2" "s1" 99).2 "s1"
        = some { sessionA with isActive := false, endedAt := some 99 } := by
  exact ⟨rfl, by decide, by decide, by decide⟩

/-- Every generated join code has exactly six characters. -/
theorem generateJoinCode_length (draws : Nat → Fin 32) (k : Nat) :
    (generateJoinCode draws k).length = 6 := by
  simp [generateJoinCode, String.length]

/-- Every character of a generated join code comes from the fixed
alphabet. -/
theorem generateJoinCode_alphabet (draws : Nat → Fin 32) (k : Nat) :
    ∀ c ∈ (generateJoinCode draws k).data, c ∈ joinChars := by
  intro c hc
  simp only [generateJoinCode, List.mem_map] at hc
  obtain ⟨i, _, rfl⟩ := hc
  exact joinChars.get_mem _ _

/-- C8: whenever the uniqueness loop of course creation returns a join
code, that code is a 6-character string over the fixed unambiguous
alphabet and is not carried by any stored course — in particular it is
unique among active courses; while a drawn code collides the loop keeps
regenerating. -/
theorem joinCode_generation_ok (draws : Nat → Fin 32) (db : DB) (fuel k : Nat)
    (code : String) (h : joinCodeLoop draws db fuel k = some code) :
    code.length = 6
    ∧ (∀ c ∈ code.data, c ∈ joinChars)
    ∧ joinCodeTaken db code = false
    ∧ (∀ cid course, (cid, course) ∈ db.courses → course.isActive = true →
        course.joinCode ≠ some code) := by
  induction fuel generalizing k with
  | zero => simp [joinCodeLoop] at h
  | succ n ih =>
    unfold joinCodeLoop at h
    by_cases ht : joinCodeTaken db (generateJoinCode draws k)
    · rw [if_pos ht] at h
      exact ih (k + 1) h
    · rw [if_neg ht] at h
      cases h
      rw [Bool.not_eq_true] at ht
      refine ⟨generateJoinCode_length draws k, generateJoinCode_alphabet draws k,
        ht, ?_⟩
      intro cid course hmem _hact hcode
      have hta : joinCodeTaken db (generateJoinCode draws k) = true := by
        simp only [joinCodeTaken, List.any_eq_true]
        exact ⟨(cid, course), hmem, by simp [hcode]⟩
      simp [hta] at ht

/-- Witness for C8: with a constant draw stream on the fixture state the
loop returns `AAAAAA`, a six-letter alphabet code unused by any course. -/
theorem joinCode_generation_ok_witness :
    ("AAAAAA" : String).length = 6
    ∧ (∀ c ∈ ("AAAAAA" : String).data, c ∈ joinChars)
    ∧ joinCodeTaken dbA "AAAAAA" = false
    ∧ (∀ cid course, (cid, course) ∈ dbA.courses → course.isActive = true →
        course.joinCode ≠ some "AAAAAA") :=
  joinCode_generation_ok (fun _ => (0 : Fin 32)) dbA 1 0 "AAAAAA" (by decide)

/-! ### Manual attendance: supporting lemmas -/

/-- Membership in the accumulator-based deduplication. -/
theorem mem_dedupFirstAux (x : String) :
    ∀ (l seen : List String),
      x ∈ dedupFirstAux seen l ↔ (x ∈ l ∧ x ∉ seen) := by
  intro l
  induction l with
  | nil => intro seen; simp [dedupFirstAux]
  | cons a l ih =>
    intro seen
    by_cases h : a ∈ seen
    · rw [dedupFirstAux, if_pos h, ih]
      simp only [List.mem_cons]
      by_cases hxa : x = a
      · subst hxa; tauto
      · tauto
    · rw [dedupFirstAux, if_neg h]
      simp only [List.mem_cons, ih, List.mem_append, List.mem_singleton]
      by_cases hxa : x = a
      · subst hxa; tauto
      · tauto

/-- `dedupFirst` preserves membership. -/
theorem mem_dedupFirst {x : String} {l : List String} :
    x ∈ dedupFirst l ↔ x ∈ l := by
  simp [dedupFirst, mem_dedupFirstAux]

/-- The deduplicated list has no duplicates. -/
theorem nodup_dedupFirstAux :
    ∀ (l seen : List String), (dedupFirstAux seen l).Nodup := by
  intro l
  induction l with
  | nil => intro seen; simp [dedupFirstAux]
  | cons a l ih =>
    intro seen
    by_cases h : a ∈ seen
    · simpa [dedupFirstAux, h] using ih seen
    · simp only [dedupFirstAux, h, if_false, ite_false]
      refine List.nodup_cons.2 ⟨?_, ih _⟩
      intro hmem
      rw [mem_dedupFirstAux] at hmem
      exact hmem.2 (by simp)

/-- `dedupFirst` has no duplicates. -/
theorem nodup_dedupFirst (l : List String) : (dedupFirst l).Nodup :=
  nodup_dedupFirstAux l []

/-- The current present set contains a student exactly when some `present`
record of the snapshot names the student. -/
theorem mem_presentIdsOf {snapshot : List ARec} {x : String} :
    x ∈ presentIdsOf snapshot
      ↔ ∃ r ∈ snapshot, r.status = "present" ∧ r.studentId = x := by
  simp only [presentIdsOf, mem_dedupFirst, List.mem_map, List.mem_filter,
    beq_iff_eq]
  constructor
  · rintro ⟨r, ⟨hr, hst⟩, rfl⟩
    exact ⟨r, hr, hst, rfl⟩
  · rintro ⟨r, hr, hst, rfl⟩
    exact ⟨r, ⟨hr, hst⟩, rfl⟩

/-- Length of the appended manual records. -/
theorem manualRecs_length (cid sid : String) (now : Nat) :
    ∀ (n0 : Nat) (l : List String),
      (manualRecs cid sid now n0 l).length = l.length := by
  intro n0 l
  induction l generalizing n0 with
  | nil => rfl
  | cons a l ih => simp [manualRecs, ih]

/-- The appended manual records carry exactly the requested students, in
order. -/
theorem manualRecs_studentIds (cid sid : String) (now : Nat) :
    ∀ (n0 : Nat) (l : List String),
      (manualRecs cid sid now n0 l).map (·.studentId) = l := by
  intro n0 l
  induction l generalizing n0 with
  | nil => rfl
  | cons a l ih => simp [manualRecs, mkManualRec, ih]

/-- Shape of each appended manual record. -/
theorem manualRecs_mem (cid sid : String) (now : Nat) :
    ∀ (n0 : Nat) (l : List String) (r : ARec),
      r ∈ manualRecs cid sid now n0 l →
      r.sessionId = sid ∧ r.status = "present" ∧ r.markedBy = "faculty"
        ∧ r.manual = true ∧ r.studentId ∈ l ∧ n0 ≤ r.id := by
  intro n0 l
  induction l generalizing n0 with
  | nil => intro r hr; simp [manualRecs] at hr
  | cons a l ih =>
    intro r hr
    rcases List.mem_cons.1 hr with rfl | hr
    · simp [mkManualRec]
    · obtain ⟨h1, h2, h3, h4, h5, h6⟩ := ih (n0 + 1) r hr
      exact ⟨h1, h2, h3, h4, List.mem_cons_of_mem _ h5, by omega⟩

/-- Every requested student receives an appended manual record. -/
theorem manualRecs_covers (cid sid : String) (now : Nat) :
    ∀ (n0 : Nat) (l : List String) (x : String), x ∈ l →
      ∃ r ∈ manualRecs cid sid now n0 l, r.studentId = x := by
  intro n0 l
  induction l generalizing n0 with
  | nil => intro x hx; simp at hx
  | cons a l ih =>
    intro x hx
    rcases List.mem_cons.1 hx with rfl | hx
    · exact ⟨mkManualRec n0 sid cid x now, by simp [manualRecs], rfl⟩
    · obtain ⟨r, hr, hrx⟩ := ih (n0 + 1) x hx
      exact ⟨r, List.mem_cons_of_mem _ hr, hrx⟩

/-- The addition loop appends exactly the manual records and bumps the id
counter; no other collection changes. -/
theorem addPresentAll_spec (cid sid : String) (now : Nat) :
    ∀ (l : List String) (db : DB),
      addPresentAll cid sid now db l
        = { db with
            attendance := db.attendance ++ manualRecs cid sid now db.nextId l
            nextId := db.nextId + l.length } := by
  intro l
  induction l with
  | nil => intro db; simp [addPresentAll, manualRecs]
  | cons a l ih =>
    intro db
    rw [addPresentAll, ih]
    simp only [manualRecs, DB.mk.injEq, List.append_assoc, List.singleton_append,
      List.length_cons, true_and, and_true]
    omega

/-- Patching preserves the record id. -/
theorem absentify_id (now : Nat) (r : ARec) : (absentify now r).id = r.id := rfl

/-- Patching twice is patching once. -/
theorem absentify_idem (now : Nat) (r : ARec) :
    absentify now (absentify now r) = absentify now r := rfl

/-- The removal loop is the pointwise patch of every record whose id is a
target id; no other collection changes. -/
theorem patchAbsentAll_spec (snapshot : List ARec) (now : Nat) :
    ∀ (l : List String) (db : DB),
      patchAbsentAll snapshot now db l
        = { db with
            attendance := db.attendance.map (fun r =>
              if r.id ∈ targetIds snapshot l then absentify now r else r) } := by
  intro l
  induction l with
  | nil =>
    intro db
    simp [patchAbsentAll, targetIds]
  | cons a l ih =>
    intro db
    rw [patchAbsentAll, ih]
    unfold patchAbsent
    cases hf : snapshot.find? (fun d => d.studentId == a && d.status == "present") with
    | none =>
      have ht : targetIds snapshot (a :: l) = targetIds snapshot l := by
        simp [targetIds, List.filterMap_cons, hf]
      rw [ht]
    | some d =>
      have ht : targetIds snapshot (a :: l) = d.id :: targetIds snapshot l := by
        simp [targetIds, List.filterMap_cons, hf]
      rw [ht]
      simp only [List.map_map]
      congr 1
      apply List.map_congr_left
      intro r _
      by_cases hid : r.id = d.id
      · by_cases h2 : d.id ∈ targetIds snapshot l <;>
          simp [Function.comp, hid, absentify_idem, absentify_id, h2]
      · simp [Function.comp, hid, List.mem_cons]

/-- Every target id belongs to a `present` record of the snapshot naming a
listed student. -/
theorem targetIds_sub {snapshot : List ARec} {l : List String} {t : Nat}
    (ht : t ∈ targetIds snapshot l) :
    ∃ d ∈ snapshot, d.id = t ∧ d.status = "present" ∧ d.studentId ∈ l := by
  simp only [targetIds, List.mem_filterMap] at ht
  obtain ⟨uid, hu, hfind⟩ := ht
  obtain ⟨d, hd, hdt⟩ := Option.map_eq_some'.1 hfind
  have hdm := List.mem_of_find?_eq_some hd
  have hdp := List.find?_some hd
  simp only [Bool.and_eq_true, beq_iff_eq] at hdp
  exact ⟨d, hdm, hdt, hdp.2, hdp.1 ▸ hu⟩

/-- When the snapshot has at most one `present` record per student, the
removal loop's `find` returns exactly the present record of the student. -/
theorem find_present_of_mem {snapshot : List ARec} {uid : String} {r : ARec}
    (huniq : ∀ r1 ∈ snapshot, ∀ r2 ∈ snapshot,
      r1.status = "present" → r2.status = "present" →
      r1.studentId = r2.studentId → r1 = r2)
    (hr : r ∈ snapshot) (hst : r.status = "present") (hid : r.studentId = uid) :
    snapshot.find? (fun d => d.studentId == uid && d.status == "present")
      = some r := by
  induction snapshot with
  | nil => simp at hr
  | cons a t ih =>
    rw [List.find?_cons]
    by_cases ha : (a.studentId == uid && a.status == "present") = true
    · simp only [ha]
      have hA : a.studentId = uid ∧ a.status = "present" := by simpa using ha
      have : a = r :=
        huniq a (by simp) r hr hA.2 hst (by rw [hA.1, hid])
      rw [this]
    · rw [Bool.not_eq_true] at ha
      simp only [ha]
      have hrt : r ∈ t := by
        rcases List.mem_cons.1 hr with rfl | h
        · rw [hid, hst] at ha
          simp at ha
        · exact h
      exact ih
        (fun r1 h1 r2 h2 => huniq r1 (List.mem_cons_of_mem _ h1) r2
          (List.mem_cons_of_mem _ h2)) hrt

/-- The result component of the reconciliation: counts of the additions and
removals. -/
theorem reconcile_result (db : DB) (s : Session) (sid : String)
    (req : List String) (now : Nat) :
    (reconcile db s sid req now).1
      = .ok (req.filter (fun i => ¬ i ∈ currentPresentIds db sid)).length
          ((currentPresentIds db sid).filter (fun i => ¬ i ∈ req)).length := rfl

/-- The attendance list after reconciliation: the original records with the
removal targets patched to absent, followed by the appended manual records
(whose ids start at the old counter). -/
theorem reconcile_attendance (db : DB) (s : Session) (sid : String)
    (req : List String) (now : Nat) :
    (reconcile db s sid req now).2.attendance
      = (db.attendance
          ++ manualRecs s.courseId sid now db.nextId
              (req.filter (fun i => ¬ i ∈ currentPresentIds db sid))).map
          (fun r =>
            if r.id ∈ targetIds (snapshotFor db sid)
                ((currentPresentIds db sid).filter (fun i => ¬ i ∈ req))
            then absentify now r else r) := by
  unfold reconcile
  simp only [addPresentAll_spec, patchAbsentAll_spec, currentPresentIds]
  split <;> rfl

/-- The session store after reconciliation: unchanged except that the
session's present-count moves by (additions − removals). -/
theorem reconcile_findSession (db : DB) (s : Session) (sid x : String)
    (req : List String) (now : Nat) :
    findSession (reconcile db s sid req now).2 x
      = (findSession db x).map (fun t =>
          if x = sid then
            { t with presentCount := t.presentCount
                + (((req.filter (fun i => ¬ i ∈ currentPresentIds db sid)).length : ℤ)
                  - ((currentPresentIds db sid).filter (fun i => ¬ i ∈ req)).length) }
          else t) := by
  unfold reconcile
  simp only [addPresentAll_spec, patchAbsentAll_spec, currentPresentIds]
  split
  · rw [findSession_incPresent, findSession_set_attendance]
  · rename_i hzero
    rw [not_not] at hzero
    rw [hzero, findSession_set_attendance]
    cases hf : findSession db x with
    | none => rfl
    | some t => by_cases hx : x = sid <;> simp [hx]

/-- The enrollments, courses and active QRs are untouched by the
reconciliation. -/
theorem reconcile_other (db : DB) (s : Session) (sid : String)
    (req : List String) (now : Nat) :
    (reconcile db s sid req now).2.enrollments = db.enrollments
    ∧ (reconcile db s sid req now).2.activeQRs = db.activeQRs
    ∧ (reconcile db s sid req now).2.courses = db.courses := by
  unfold reconcile
  simp only [addPresentAll_spec, patchAbsentAll_spec]
  split <;> exact ⟨rfl, rfl, rfl⟩

/-- A map whose function fixes every element of the list is the
identity. -/
theorem map_eq_self_of {α : Type} {l : List α} {f : α → α}
    (h : ∀ a ∈ l, f a = a) : l.map f = l := by
  induction l with
  | nil => rfl
  | cons a t ih =>
    rw [List.map_cons, h a (by simp),
      ih (fun b hb => h b (List.mem_cons_of_mem _ hb))]

/-- Membership in a session's snapshot. -/
theorem mem_snapshotFor {db : DB} {sid : String} {r : ARec} :
    r ∈ snapshotFor db sid ↔ r ∈ db.attendance ∧ r.sessionId = sid := by
  simp [snapshotFor, List.mem_filter]

/-- Under the one-present-record-per-student invariant and distinct record
ids, a stored record is a removal target exactly when it is a `present`
record of the session whose student is not requested. -/
theorem target_iff {db : DB} {sid : String} {req : List String} {r : ARec}
    (huniq : ∀ r1 ∈ db.attendance, ∀ r2 ∈ db.attendance,
      r1.sessionId = sid → r2.sessionId = sid →
      r1.status = "present" → r2.status = "present" →
      r1.studentId = r2.studentId → r1 = r2)
    (hids : (db.attendance.map (fun r => r.id)).Nodup)
    (hr : r ∈ db.attendance) :
    r.id ∈ targetIds (snapshotFor db sid)
        ((currentPresentIds db sid).filter (fun i => ¬ i ∈ req))
      ↔ (r.sessionId = sid ∧ r.status = "present" ∧ ¬ r.studentId ∈ req) := by
  constructor
  · intro ht
    obtain ⟨d, hd, hdid, hdst, hdmem⟩ := targetIds_sub ht
    have hdatt := (mem_snapshotFor.1 hd).1
    have hdr : d = r := List.inj_on_of_nodup_map hids hdatt hr hdid
    subst hdr
    refine ⟨(mem_snapshotFor.1 hd).2, hdst, ?_⟩
    have := (List.mem_filter.1 hdmem).2
    simpa using this
  · rintro ⟨hsid, hst, hnreq⟩
    have hrs : r ∈ snapshotFor db sid := mem_snapshotFor.2 ⟨hr, hsid⟩
    have hcur : r.studentId ∈ currentPresentIds db sid :=
      mem_presentIdsOf.2 ⟨r, hrs, hst, rfl⟩
    have hR : r.studentId
        ∈ (currentPresentIds db sid).filter (fun i => ¬ i ∈ req) :=
      List.mem_filter.2 ⟨hcur, by simpa using hnreq⟩
    have huniqS : ∀ r1 ∈ snapshotFor db sid, ∀ r2 ∈ snapshotFor db sid,
        r1.status = "present" → r2.status = "present" →
        r1.studentId = r2.studentId → r1 = r2 := by
      intro r1 h1 r2 h2
      exact huniq r1 (mem_snapshotFor.1 h1).1 r2 (mem_snapshotFor.1 h2).1
        (mem_snapshotFor.1 h1).2 (mem_snapshotFor.1 h2).2
    have hfind := find_present_of_mem huniqS hrs hst rfl
    simp only [targetIds, List.mem_filterMap]
    exact ⟨r.studentId, hR, by rw [hfind]; rfl⟩

/-- With fresh ids, the appended manual records are untouched by the
removal patches: the post-state attendance splits into the patched old
records followed by the appended ones. -/
theorem reconcile_attendance_split {db : DB} {s : Session} {sid : String}
    {req : List String} {now : Nat}
    (hfresh : ∀ r ∈ db.attendance, r.id < db.nextId) :
    (reconcile db s sid req now).2.attendance
      = db.attendance.map
          (fun r =>
            if r.id ∈ targetIds (snapshotFor db sid)
                ((currentPresentIds db sid).filter (fun i => ¬ i ∈ req))
            then absentify now r else r)
        ++ manualRecs s.courseId sid now db.nextId
            (req.filter (fun i => ¬ i ∈ currentPresentIds db sid)) := by
  rw [reconcile_attendance, List.map_append]
  congr 1
  apply map_eq_self_of
  intro r hrm
  apply if_neg
  intro ht
  obtain ⟨_, _, _, _, _, hle⟩ := manualRecs_mem _ _ _ _ _ _ hrm
  obtain ⟨d, hd, hdid, _, _⟩ := targetIds_sub ht
  have := hfresh d (mem_snapshotFor.1 hd).1
  omega

/-- Ownership-gated unfolding of the manual-attendance route. -/
theorem applyManual_eq_reconcile {db : DB} {callerId sid : String}
    {req : List String} {now : Nat} {s : Session}
    (hsess : findSession db sid = some s) (hown : s.facultyId = callerId) :
    applyManualAttendance db callerId sid req now = reconcile db s sid req now := by
  simp [applyManualAttendance, hsess, hown]

/-- After the reconciliation, the session's present set is exactly the
requested set. -/
theorem reconcile_present_iff (db : DB) (s : Session) (sid : String)
    (req : List String) (now : Nat)
    (huniq : ∀ r1 ∈ db.attendance, ∀ r2 ∈ db.attendance,
      r1.sessionId = sid → r2.sessionId = sid →
      r1.status = "present" → r2.status = "present" →
      r1.studentId = r2.studentId → r1 = r2)
    (hids : (db.attendance.map (fun r => r.id)).Nodup)
    (hfresh : ∀ r ∈ db.attendance, r.id < db.nextId) :
    ∀ x, x ∈ currentPresentIds (reconcile db s sid req now).2 sid ↔ x ∈ req := by
  intro x
  rw [currentPresentIds, mem_presentIdsOf]
  constructor
  · rintro ⟨rec, hrec, hst, rfl⟩
    obtain ⟨hratt, hrsid⟩ := mem_snapshotFor.1 hrec
    rw [reconcile_attendance_split hfresh] at hratt
    rcases List.mem_append.1 hratt with hml | hmr
    · obtain ⟨r0, hr0, hr0e⟩ := List.mem_map.1 hml
      by_cases ht : r0.id ∈ targetIds (snapshotFor db sid)
          ((currentPresentIds db sid).filter (fun i => ¬ i ∈ req))
      · rw [if_pos ht] at hr0e
        rw [← hr0e] at hst
        simp [absentify] at hst
      · rw [if_neg ht] at hr0e
        subst hr0e
        have := (target_iff huniq hids hr0).not.1 ht
        push_neg at this
        exact this hrsid hst
    · obtain ⟨_, _, _, _, hmem, _⟩ := manualRecs_mem _ _ _ _ _ _ hmr
      exact (List.mem_filter.1 hmem).1
  · intro hx
    by_cases hcur : x ∈ currentPresentIds db sid
    · obtain ⟨r0, hr0s, hr0st, hr0x⟩ :=
        mem_presentIdsOf.1 (by rwa [currentPresentIds] at hcur)
      obtain ⟨hr0att, hr0sid⟩ := mem_snapshotFor.1 hr0s
      have ht : ¬ r0.id ∈ targetIds (snapshotFor db sid)
          ((currentPresentIds db sid).filter (fun i => ¬ i ∈ req)) := by
        intro ht
        obtain ⟨_, _, h3⟩ := (target_iff huniq hids hr0att).1 ht
        exact h3 (hr0x ▸ hx)
      refine ⟨r0, mem_snapshotFor.2 ⟨?_, hr0sid⟩, hr0st, hr0x⟩
      rw [reconcile_attendance_split hfresh]
      exact List.mem_append.2 (Or.inl (List.mem_map.2 ⟨r0, hr0att, if_neg ht⟩))
    · have hxA : x ∈ req.filter (fun i => ¬ i ∈ currentPresentIds db sid) :=
        List.mem_filter.2 ⟨hx, by simpa using hcur⟩
      obtain ⟨rec, hrecm, hrecx⟩ :=
        manualRecs_covers s.courseId sid now db.nextId _ x hxA
      obtain ⟨h1, h2, _, _, _, _⟩ := manualRecs_mem _ _ _ _ _ _ hrecm
      refine ⟨rec, mem_snapshotFor.2 ⟨?_, h1⟩, h2, hrecx⟩
      rw [reconcile_attendance_split hfresh]
      exact List.mem_append.2 (Or.inr hrecm)

/-- A reconciliation whose additions and removals are both empty changes
nothing and reports zero counts. -/
theorem reconcile_nochange {db : DB} {s : Session} {sid : String}
    {req : List String} {now : Nat}
    (hA : req.filter (fun i => ¬ i ∈ currentPresentIds db sid) = [])
    (hR : (currentPresentIds db sid).filter (fun i => ¬ i ∈ req) = []) :
    reconcile db s sid req now = (.ok 0 0, db) := by
  unfold reconcile
  dsimp only
  rw [currentPresentIds] at hA hR
  rw [hA, hR]
  simp [addPresentAll, patchAbsentAll]

/-- A second reconciliation with the same request reports zero additions
and removals and leaves the state untouched. -/
theorem reconcile_second {db : DB} {callerId sid : String}
    {req : List String} {now : Nat} {s : Session}
    (hsess : findSession db sid = some s) (hown : s.facultyId = callerId)
    (huniq : ∀ r1 ∈ db.attendance, ∀ r2 ∈ db.attendance,
      r1.sessionId = sid → r2.sessionId = sid →
      r1.status = "present" → r2.status = "present" →
      r1.studentId = r2.studentId → r1 = r2)
    (hids : (db.attendance.map (fun r => r.id)).Nodup)
    (hfresh : ∀ r ∈ db.attendance, r.id < db.nextId) :
    applyManualAttendance (reconcile db s sid req now).2 callerId sid req now
      = (.ok 0 0, (reconcile db s sid req now).2) := by
  have hiff := reconcile_present_iff db s sid req now huniq hids hfresh
  have hsess2 : findSession (reconcile db s sid req now).2 sid
      = some { s with presentCount := s.presentCount
          + (((req.filter (fun i => ¬ i ∈ currentPresentIds db sid)).length : ℤ)
            - ((currentPresentIds db sid).filter (fun i => ¬ i ∈ req)).length) } := by
    rw [reconcile_findSession, hsess]
    simp
  rw [applyManual_eq_reconcile hsess2 hown]
  apply reconcile_nochange
  · rw [List.filter_eq_nil_iff]
    intro a ha
    simp [(hiff a).2 ha]
  · rw [List.filter_eq_nil_iff]
    intro a ha
    simp [(hiff a).1 ha]

/-- Counterexample to C6 as stated: `presentStudentIds` may contain
duplicates, and the route then appends one `present` record per occurrence
and adjusts the count by the occurrence count, not by the size of the
delta set.  Requesting `[u2, u2]` on an empty session reports 2 added,
creates two `present` records for the single student `u2`, and raises the
present-count by 2 — not by additions − removals = 1. -/
theorem manual_attendance_duplicate_counterexample :
    (applyManualAttendance dbA "f1" "s1" ["u2", "u2"] 7).1 = .ok 2 0
    ∧ ((applyManualAttendance dbA "f1" "s1" ["u2", "u2"] 7).2.attendance.filter
        (fun r => r.sessionId == "s1" && r.studentId == "u2"
          && r.status == "present")).length = 2
    ∧ findSession (applyManualAttendance dbA "f1" "s1" ["u2", "u2"] 7).2 "s1"
        = some { sessionA with presentCount := 2 } := by
  exact ⟨by decide, by decide, by decide⟩

/-- C6 (amended): for a session state with at most one `present` record per
student (and well-formed record ids) and a duplicate-free request,
`applyManualAttendance` is a pure set-reconciliation touching only the
delta.  It reports exactly |request − present| added and
|present − request| removed; moves the present-count by
(additions − removals); afterwards the present set equals the request;
records that are not in the delta (any other session's, non-present ones,
and present records of requested students) survive unchanged; present
records of unrequested students are patched to absent in place (never
deleted); the appended records are exactly one new `present` record per
requested-but-absent student; and a second call with the same request
reports zero added, zero removed and leaves the state (hence the
present-count) unchanged. -/
theorem manual_attendance_reconciliation_amended
    (db : DB) (callerId sid : String) (req : List String) (now : Nat)
    (s : Session)
    (hsess : findSession db sid = some s) (hown : s.facultyId = callerId)
    (hnd : req.Nodup)
    (huniq : ∀ r1 ∈ db.attendance, ∀ r2 ∈ db.attendance,
      r1.sessionId = sid → r2.sessionId = sid →
      r1.status = "present" → r2.status = "present" →
      r1.studentId = r2.studentId → r1 = r2)
    (hids : (db.attendance.map (fun r => r.id)).Nodup)
    (hfresh : ∀ r ∈ db.attendance, r.id < db.nextId) :
    ((applyManualAttendance db callerId sid req now).1
       = .ok (req.filter (fun i => ¬ i ∈ currentPresentIds db sid)).length
           ((currentPresentIds db sid).filter (fun i => ¬ i ∈ req)).length)
    ∧ (findSession (applyManualAttendance db callerId sid req now).2 sid
        = some { s with presentCount := s.presentCount
            + (((req.filter (fun i => ¬ i ∈ currentPresentIds db sid)).length : ℤ)
              - ((currentPresentIds db sid).filter (fun i => ¬ i ∈ req)).length) })
    ∧ (∀ x, x ∈ currentPresentIds
          (applyManualAttendance db callerId sid req now).2 sid ↔ x ∈ req)
    ∧ (∀ r ∈ db.attendance,
        (r.sessionId = sid → r.status = "present" → r.studentId ∈ req) →
        r ∈ (applyManualAttendance db callerId sid req now).2.attendance)
    ∧ (∀ r ∈ db.attendance, r.sessionId = sid → r.status = "present" →
        ¬ r.studentId ∈ req →
        absentify now r ∈ (applyManualAttendance db callerId sid req now).2.attendance)
    ∧ ((applyManualAttendance db callerId sid req now).2.attendance.length
        = db.attendance.length
          + (req.filter (fun i => ¬ i ∈ currentPresentIds db sid)).length)
    ∧ (((applyManualAttendance db callerId sid req now).2.attendance.drop
          db.attendance.length).map (fun r => r.studentId)
        = req.filter (fun i => ¬ i ∈ currentPresentIds db sid)
       ∧ (req.filter (fun i => ¬ i ∈ currentPresentIds db sid)).Nodup)
    ∧ (applyManualAttendance
          (applyManualAttendance db callerId sid req now).2 callerId sid req now
        = (.ok 0 0, (applyManualAttendance db callerId sid req now).2)) := by
  rw [applyManual_eq_reconcile hsess hown]
  refine ⟨?_, ?_, ?_, ?_, ?_, ?_, ⟨?_, ?_⟩, ?_⟩
  · rw [reconcile_result]
  · rw [reconcile_findSession, hsess]
    simp
  · exact reconcile_present_iff db s sid req now huniq hids hfresh
  · intro r hr himp
    rw [reconcile_attendance_split hfresh]
    refine List.mem_append.2 (Or.inl (List.mem_map.2 ⟨r, hr, ?_⟩))
    apply if_neg
    intro ht
    obtain ⟨h1, h2, h3⟩ := (target_iff huniq hids hr).1 ht
    exact h3 (himp h1 h2)
  · intro r hr h1 h2 h3
    rw [reconcile_attendance_split hfresh]
    refine List.mem_append.2 (Or.inl (List.mem_map.2 ⟨r, hr, ?_⟩))
    exact if_pos ((target_iff huniq hids hr).2 ⟨h1, h2, h3⟩)
  · rw [reconcile_attendance_split hfresh]
    simp [manualRecs_length]
  · rw [reconcile_attendance_split hfresh]
    have hdrop : ∀ (l1 l2 : List ARec), l1.length = db.attendance.length →
        (l1 ++ l2).drop db.attendance.length = l2 := by
      intro l1 l2 h
      rw [← h]
      exact List.drop_left l1 l2
    rw [hdrop _ _ (List.length_map _ _)]
    exact manualRecs_studentIds s.courseId sid now db.nextId _
  · exact List.Nodup.filter _ hnd
  · exact reconcile_second hsess hown huniq hids hfresh

/-- Witness for C6 (amended) on the concrete state `dbA` with request
`[u2]`: one student added, none removed, and the second call is a
no-op. -/
theorem manual_attendance_reconciliation_amended_witness :
    ((applyManualAttendance dbA "f1" "s1" ["u2"] 7).1
       = .ok (["u2"].filter (fun i => ¬ i ∈ currentPresentIds dbA "s1")).length
           ((currentPresentIds dbA "s1").filter (fun i => ¬ i ∈ ["u2"])).length)
    ∧ (findSession (applyManualAttendance dbA "f1" "s1" ["u2"] 7).2 "s1"
        = some { sessionA with presentCount := sessionA.presentCount
            + (((["u2"].filter (fun i => ¬ i ∈ currentPresentIds dbA "s1")).length : ℤ)
              - ((currentPresentIds dbA "s1").filter (fun i => ¬ i ∈ ["u2"])).length) })
    ∧ (∀ x, x ∈ currentPresentIds
          (applyManualAttendance dbA "f1" "s1" ["u2"] 7).2 "s1" ↔ x ∈ ["u2"])
    ∧ (∀ r ∈ dbA.attendance,
        (r.sessionId = "s1" → r.status = "present" → r.studentId ∈ ["u2"]) →
        r ∈ (applyManualAttendance dbA "f1" "s1" ["u2"] 7).2.attendance)
    ∧ (∀ r ∈ dbA.attendance, r.sessionId = "s1" → r.status = "present" →
        ¬ r.studentId ∈ ["u2"] →
        absentify 7 r ∈ (applyManualAttendance dbA "f1" "s1" ["u2"] 7).2.attendance)
    ∧ ((applyManualAttendance dbA "f1" "s1" ["u2"] 7).2.attendance.length
        = dbA.attendance.length
          + (["u2"].filter (fun i => ¬ i ∈ currentPresentIds dbA "s1")).length)
    ∧ (((applyManualAttendance dbA "f1" "s1" ["u2"] 7).2.attendance.drop
          dbA.attendance.length).map (fun r => r.studentId)
        = ["u2"].filter (fun i => ¬ i ∈ currentPresentIds dbA "s1")
       ∧ (["u2"].filter (fun i => ¬ i ∈ currentPresentIds dbA "s1")).Nodup)
    ∧ (applyManualAttendance
          (applyManualAttendance dbA "f1" "s1" ["u2"] 7).2 "f1" "s1" ["u2"] 7
        = (.ok 0 0, (applyManualAttendance dbA "f1" "s1" ["u2"] 7).2)) :=
  manual_attendance_reconciliation_amended dbA "f1" "s1" ["u2"] 7 sessionA
    (by decide) (by decide) (by decide) (by decide) (by decide) (by decide)

end Attend
